import Mathlib

/-!
Shallow embedding of the page-rendering core of a C++ PDF editor
(`src/core/src/renderer.cpp`, with collaborator types from
`src/core/include/pdfeditor/core.h` and `src/core/src/document.cpp`).

Machine floats of the C++ are modelled by exact rationals (ℚ); every
concrete input used below is a small dyadic rational, exactly
representable in IEEE single precision, so float evaluation of the C++
agrees with the ℚ model at those points.  C++ `static_cast<int>` on a
float is truncation toward zero, modelled by `cppInt`.
-/

namespace PdfEditor

/-- C++ `static_cast<int>` applied to a real value: truncation toward zero. -/
def cppInt (q : ℚ) : ℤ := if 0 ≤ q then ⌊q⌋ else ⌈q⌉

/-- `Rect` from core.h: `x0,y0` bottom-left, `x1,y1` top-right (floats). -/
structure Rect where
  x0 : ℚ
  y0 : ℚ
  x1 : ℚ
  y1 : ℚ
deriving DecidableEq, Repr

/-- Membership of a point in the half-open box `[x0,x1) × [y0,y1)` of a rect. -/
def Rect.containsPt (r : Rect) (x y : ℚ) : Prop :=
  r.x0 ≤ x ∧ x < r.x1 ∧ r.y0 ≤ y ∧ y < r.y1

instance (r : Rect) (x y : ℚ) : Decidable (r.containsPt x y) := by
  unfold Rect.containsPt; infer_instance

/-- `Point` from core.h. -/
structure Point where
  x : ℚ
  y : ℚ
deriving DecidableEq, Repr

/-- `Color` from core.h (RGBA floats). -/
structure Color where
  r : ℚ
  g : ℚ
  b : ℚ
  a : ℚ
deriving DecidableEq, Repr

def Color.white : Color := ⟨1, 1, 1, 1⟩

/-- `ErrorCode` from core.h (only the values the renderer uses). -/
inductive ErrorCode where
  | Success
  | NotImplemented
  | InvalidArgument
  | RenderError
deriving DecidableEq, Repr

inductive AntiAliasing where
  | NoAA
  | Text
  | Graphics
  | All
deriving DecidableEq, Repr

inductive ColorMode where
  | RGB
  | CMYK
  | Grayscale
  | Monochrome
deriving DecidableEq, Repr

inductive ImageFormat where
  | RGB24
  | RGBA32
  | BGR24
  | BGRA32
  | Gray8
  | Mono1
deriving DecidableEq, Repr

inductive PageRotation where
  | NoRotation
  | Clockwise90
  | Clockwise180
  | Clockwise270
deriving DecidableEq, Repr

/-- `RenderOptions` from renderer.h. -/
structure RenderOptions where
  dpi : ℚ
  anti_aliasing : AntiAliasing
  color_mode : ColorMode
  image_format : ImageFormat
  render_annotations : Bool
  render_forms : Bool
  render_xfa_forms : Bool
  render_transparent : Bool
  background_color : Color
  clip_rect : Rect
  use_clip_rect : Bool
  rotation : PageRotation
  override_rotation : Bool
deriving DecidableEq, Repr

/-- The default-constructed `RenderOptions` (field initialisers in renderer.h). -/
def RenderOptions.default : RenderOptions :=
  { dpi := 150
    anti_aliasing := .All
    color_mode := .RGB
    image_format := .RGB24
    render_annotations := true
    render_forms := true
    render_xfa_forms := false
    render_transparent := false
    background_color := Color.white
    clip_rect := ⟨0, 0, 0, 0⟩
    use_clip_rect := false
    rotation := .NoRotation
    override_rotation := false }

/-- A non-null `Page` collaborator: its geometry (`Page::width/height`,
PDF points) and the opaque handle used as identity.  A nullable `Page*`
is `Option PageModel`. -/
structure PageModel where
  width : ℚ
  height : ℚ
  handle : ℕ
deriving DecidableEq, Repr

/-- `ImageBuffer`: pixel metadata plus the byte vector (`Impl::data`).
`size()` is the length of `data`. -/
structure ImageBuffer where
  width : ℤ
  height : ℤ
  stride : ℤ
  format : ImageFormat
  data : List ℕ
deriving DecidableEq, Repr

def ImageBuffer.size (b : ImageBuffer) : ℕ := b.data.length

/-- An error carried by a failed `Result<T>`: code plus message. -/
structure RenderErr where
  code : ErrorCode
  msg : String
deriving DecidableEq, Repr

/-- `Result<std::unique_ptr<ImageBuffer>>`: either an owned buffer or an
error code with message. -/
abbrev RenderResult := Except RenderErr ImageBuffer

/-- The MuPDF engine behind `render_page`'s `fz_try` block, abstracted:
whether a per-thread `fz_context` can be obtained, and what the
rasterization of a page under given options produces (a pixel buffer, or
an engine error message surfaced by `fz_catch`). -/
structure Engine where
  hasContext : Bool
  run : PageModel → RenderOptions → Except String ImageBuffer

/-- `Renderer::render_page` (renderer.cpp lines 116–240): null-page check
(`InvalidArgument`), context acquisition (`RenderError` on failure), then
the engine rasterization with `fz_catch` mapping engine failures to
`RenderError` carrying the engine message verbatim. -/
def render_page (eng : Engine) (page : Option PageModel) (_opts : RenderOptions) :
    RenderResult :=
  match page with
  | none => .error ⟨.InvalidArgument, "Invalid page"⟩
  | some pg =>
    if eng.hasContext then
      match eng.run pg _opts with
      | .ok buf => .ok buf
      | .error m => .error ⟨.RenderError, m⟩
    else .error ⟨.RenderError, "Failed to get rendering context"⟩

/-- `Renderer::calculate_dimensions` (renderer.cpp lines 512–526):
null page gives `(0,0)`; otherwise `scale = dpi / 72` and each extent is
`static_cast<int>(extent * scale)`. -/
def calculate_dimensions (page : Option PageModel) (dpi : ℚ) : ℤ × ℤ :=
  match page with
  | none => (0, 0)
  | some pg =>
    let scale := dpi / 72
    (cppInt (pg.width * scale), cppInt (pg.height * scale))

/-- `Renderer::calculate_scale_to_fit` (renderer.cpp lines 528–542). -/
def calculate_scale_to_fit (page : Option PageModel) (max_width max_height : ℤ) : ℚ :=
  match page with
  | none => 1
  | some pg => min ((max_width : ℚ) / pg.width) ((max_height : ℚ) / pg.height)

/-- `Renderer::page_to_pixel` (renderer.cpp lines 544–554): scale by
`dpi/72` and flip the Y axis. -/
def page_to_pixel (p : Point) (dpi page_height : ℚ) : Point :=
  let scale := dpi / 72
  ⟨p.x * scale, (page_height - p.y) * scale⟩

/-- `Renderer::pixel_to_page` (renderer.cpp lines 556–566): scale by
`72/dpi` and flip the Y axis back. -/
def pixel_to_page (p : Point) (dpi page_height : ℚ) : Point :=
  let scale := 72 / dpi
  ⟨p.x * scale, page_height - p.y * scale⟩

/-- `Renderer::TileInfo` from renderer.h. -/
structure TileInfo where
  tile_x : ℤ
  tile_y : ℤ
  tile_width : ℤ
  tile_height : ℤ
  page_rect : Rect
deriving DecidableEq, Repr

/-- The tile built for grid cell `(row, col)` in the body of the double
loop of `Renderer::calculate_tiles`: integer corner coordinates, with
`x1`/`y1` clamped by `std::min` against `static_cast<int>` of the page
extent. -/
def mkTile (pw ph : ℚ) (tile_width tile_height : ℤ) (row col : ℤ) : TileInfo :=
  { tile_x := col
    tile_y := row
    tile_width := tile_width
    tile_height := tile_height
    page_rect :=
      { x0 := ((col * tile_width : ℤ) : ℚ)
        y0 := ((row * tile_height : ℤ) : ℚ)
        x1 := ((min ((col + 1) * tile_width) (cppInt pw) : ℤ) : ℚ)
        y1 := ((min ((row + 1) * tile_height) (cppInt ph) : ℤ) : ℚ) } }

/-- `Renderer::calculate_tiles` (renderer.cpp lines 414–450): empty for a
null page; otherwise `cols = ceil(page_width / tile_width)`,
`rows = ceil(page_height / tile_height)` and one tile per `(row, col)`,
row-major.  `std::ceil` of the float quotient followed by
`static_cast<int>` is exactly `⌈·⌉` since the ceiling is already integral. -/
def calculate_tiles (page : Option PageModel) (tile_width tile_height : ℤ)
    (_opts : RenderOptions) : List TileInfo :=
  match page with
  | none => []
  | some pg =>
    let cols : ℤ := ⌈pg.width / (tile_width : ℚ)⌉
    let rows : ℤ := ⌈pg.height / (tile_height : ℚ)⌉
    (List.range rows.toNat).flatMap (fun row : ℕ =>
      (List.range cols.toNat).map (fun col : ℕ =>
        mkTile pg.width pg.height tile_width tile_height (row : ℤ) (col : ℤ)))

/-- `Renderer::render_tile` (renderer.cpp lines 452–462): a clipped full
render with `use_clip_rect = true` and `clip_rect = tile.page_rect`. -/
def render_tile (eng : Engine) (page : Option PageModel) (tile : TileInfo)
    (opts : RenderOptions) : RenderResult :=
  render_page eng page { opts with use_clip_rect := true, clip_rect := tile.page_rect }

/-- `Renderer::render_page_to_buffer` (renderer.cpp lines 242–262): render,
return `false` on failure; return `false` if the image byte count exceeds
`buffer_size` (the length of the caller's buffer); otherwise `memcpy` the
image bytes over the front of the buffer and return `true`.  The second
component is the caller-owned buffer after the call. -/
def render_page_to_buffer (eng : Engine) (page : Option PageModel)
    (buffer : List ℕ) (opts : RenderOptions) : Bool × List ℕ :=
  match render_page eng page opts with
  | .error _ => (false, buffer)
  | .ok img =>
    if img.size > buffer.length then (false, buffer)
    else (true, img.data ++ buffer.drop img.size)

/-- The options `Renderer::render_page_scaled` (renderer.cpp lines 264–275)
passes to `render_page`: `dpi *= (scale_x + scale_y) / 2` (average scale),
all other fields copied. -/
def scaled_options (opts : RenderOptions) (scale_x scale_y : ℚ) : RenderOptions :=
  { opts with dpi := opts.dpi * ((scale_x + scale_y) / 2) }

def render_page_scaled (eng : Engine) (page : Option PageModel)
    (scale_x scale_y : ℚ) (opts : RenderOptions) : RenderResult :=
  render_page eng page (scaled_options opts scale_x scale_y)

/-- The options `Renderer::render_page_to_size` (renderer.cpp lines 277–302)
passes to `render_page` for a non-null page:
`dpi = 72 * min(width / page_width, height / page_height)`. -/
def to_size_options (opts : RenderOptions) (pg : PageModel) (width height : ℤ) :
    RenderOptions :=
  { opts with dpi := 72 * min ((width : ℚ) / pg.width) ((height : ℚ) / pg.height) }

def render_page_to_size (eng : Engine) (page : Option PageModel)
    (width height : ℤ) (opts : RenderOptions) : RenderResult :=
  match page with
  | none => .error ⟨.InvalidArgument, "Invalid page"⟩
  | some pg => render_page eng (some pg) (to_size_options opts pg width height)

/-- A non-null `Document` collaborator: its pages in order.
`Document::get_page` (document.cpp lines 200–216) returns null exactly for
an out-of-range index; in range it always returns a (lazily created)
non-null page. -/
structure DocModel where
  pages : List PageModel
deriving DecidableEq, Repr

def DocModel.page_count (d : DocModel) : ℤ := (d.pages.length : ℤ)

def DocModel.get_page (d : DocModel) (index : ℤ) : Option PageModel :=
  if index < 0 ∨ d.page_count ≤ index then none
  else d.pages.get? index.toNat

/-- `ProgressCallback` from core.h: `(current, total, message) → continue?`. -/
abbrev ProgressCallback := ℤ → ℤ → String → Bool

/-- The loop of `Renderer::render_pages` (renderer.cpp lines 304–337):
at index `i`, an installed callback returning `false` breaks the loop
(truncating the results); otherwise a per-item slot is appended — the
render result for a looked-up page, or an `InvalidArgument` error slot
when `get_page` returns null. -/
def render_pages_go (eng : Engine) (doc : DocModel) (opts : RenderOptions)
    (callback : Option ProgressCallback) (total : ℤ) :
    ℤ → List ℤ → List RenderResult
  | _, [] => []
  | i, idx :: rest =>
    let proceed : Bool :=
      match callback with
      | none => true
      | some cb => cb i total ("Rendering page " ++ toString idx)
    if proceed then
      (match doc.get_page idx with
       | some p => render_page eng (some p) opts
       | none => .error ⟨.InvalidArgument, "Invalid page index"⟩)
        :: render_pages_go eng doc opts callback total (i + 1) rest
    else []

def render_pages (eng : Engine) (doc : DocModel) (page_indices : List ℤ)
    (opts : RenderOptions) (callback : Option ProgressCallback) : List RenderResult :=
  render_pages_go eng doc opts callback (page_indices.length : ℤ) 0 page_indices

/-- `[0, 1, ..., n-1]` as integers (the index loop of `render_all_pages`). -/
def intRange (n : ℤ) : List ℤ := (List.range n.toNat).map (fun i : ℕ => (i : ℤ))

/-- `Renderer::render_all_pages` (renderer.cpp lines 339–352): empty for a
null document, else `render_pages` over every index. -/
def render_all_pages (eng : Engine) (doc : Option DocModel) (opts : RenderOptions)
    (callback : Option ProgressCallback) : List RenderResult :=
  match doc with
  | none => []
  | some d => render_pages eng d (intRange d.page_count) opts callback

/-- The options `Renderer::render_thumbnail` (renderer.cpp lines 354–380)
builds: a default-constructed `RenderOptions` with
`dpi = 72 * scale` (`scale = min` of the two axis scales when
`maintain_aspect`, else the x scale) and `anti_aliasing = All`. -/
def thumbnail_options (pg : PageModel) (max_width max_height : ℤ)
    (maintain_aspect : Bool) : RenderOptions :=
  let scale_x := (max_width : ℚ) / pg.width
  let scale_y := (max_height : ℚ) / pg.height
  let scale := if maintain_aspect then min scale_x scale_y else scale_x
  { RenderOptions.default with dpi := 72 * scale, anti_aliasing := .All }

def render_thumbnail (eng : Engine) (page : Option PageModel)
    (max_width max_height : ℤ) (maintain_aspect : Bool) : RenderResult :=
  match page with
  | none => .error ⟨.InvalidArgument, "Invalid page"⟩
  | some pg => render_page eng (some pg) (thumbnail_options pg max_width max_height maintain_aspect)

/-- The loop of `Renderer::render_all_thumbnails` (renderer.cpp lines
382–412): callback may break; then `if (page)` — a slot is pushed only
when `get_page` returned non-null, and there is **no else branch**: an
index whose lookup fails contributes nothing to the results. -/
def render_all_thumbnails_go (eng : Engine) (doc : DocModel)
    (max_width max_height : ℤ) (callback : Option ProgressCallback) (total : ℤ) :
    List ℤ → List RenderResult
  | [] => []
  | i :: rest =>
    let proceed : Bool :=
      match callback with
      | none => true
      | some cb => cb i total ("Generating thumbnail " ++ toString (i + 1))
    if proceed then
      match doc.get_page i with
      | some p =>
        render_thumbnail eng (some p) max_width max_height true
          :: render_all_thumbnails_go eng doc max_width max_height callback total rest
      | none => render_all_thumbnails_go eng doc max_width max_height callback total rest
    else []

def render_all_thumbnails (eng : Engine) (doc : Option DocModel)
    (max_width max_height : ℤ) (callback : Option ProgressCallback) : List RenderResult :=
  match doc with
  | none => []
  | some d =>
    render_all_thumbnails_go eng d max_width max_height callback d.page_count
      (intRange d.page_count)

/-- The mutable state of `Renderer::Impl` (renderer.cpp lines 88–111):
cache flag, cache bound in megabytes, thread count, and the cache map
`std::map<void*, std::unique_ptr<ImageBuffer>>` keyed by page handle,
modelled as an association list. -/
structure RendererState where
  cache_enabled : Bool
  cache_size_mb : ℕ
  thread_count : ℤ
  cache : List (ℕ × ImageBuffer)
deriving DecidableEq, Repr

/-- `Renderer::Impl::Impl()`: `cache_enabled_(true), cache_size_mb_(100),
thread_count_(0)`, empty cache map. -/
def RendererState.init : RendererState := ⟨true, 100, 0, []⟩

/-- `Renderer::render_page` as a state transformer over `Renderer::Impl`.
The body of `render_page` (renderer.cpp lines 116–240) contains no access
to `impl_->cache_` — it neither looks an entry up nor inserts one — so
the state is returned unchanged and the result comes from the engine
alone. -/
def render_page_st (eng : Engine) (st : RendererState) (page : Option PageModel)
    (opts : RenderOptions) : RenderResult × RendererState :=
  (render_page eng page opts, st)

/-- `Renderer::clear_cache` (renderer.cpp lines 502–505). -/
def clear_cache (st : RendererState) : RendererState := { st with cache := [] }

/-- `Renderer::invalidate_page` (renderer.cpp lines 507–510): erase the
entry keyed by the page handle. -/
def invalidate_page (st : RendererState) (pg : PageModel) : RendererState :=
  { st with cache := st.cache.filter (fun e => e.1 ≠ pg.handle) }

/-- `Renderer::set_cache_size` (renderer.cpp lines 494–496). -/
def set_cache_size (st : RendererState) (size_mb : ℕ) : RendererState :=
  { st with cache_size_mb := size_mb }

/-- A sequence of `render_page` calls on one renderer, threading the
`Renderer::Impl` state and collecting the per-call results. -/
def render_sequence (eng : Engine) (st : RendererState)
    (pages : List (Option PageModel)) (opts : RenderOptions) :
    List RenderResult × RendererState :=
  match pages with
  | [] => ([], st)
  | p :: rest =>
    let r := render_page_st eng st p opts
    let rs := render_sequence eng r.2 rest opts
    (r.1 :: rs.1, rs.2)

/-- `RenderJob::Status` from renderer.h. -/
inductive JobStatus where
  | Pending
  | Running
  | Completed
  | Failed
  | Cancelled
deriving DecidableEq, Repr

/-- The three terminal states (`wait`'s predicate in renderer.cpp lines
614–635): `Completed`, `Failed`, `Cancelled`. -/
def JobStatus.isTerminal : JobStatus → Bool
  | .Completed => true
  | .Failed => true
  | .Cancelled => true
  | _ => false

/-- `RenderJob::Impl` (renderer.cpp lines 592–599): status, progress, and
the stored result buffer (`std::unique_ptr`, so possibly null). -/
structure RenderJob where
  status : JobStatus
  progress : ℚ
  result : Option ImageBuffer
deriving DecidableEq, Repr

/-- A freshly constructed job: `Pending`, progress 0, no result. -/
def RenderJob.new : RenderJob := ⟨.Pending, 0, none⟩

/-- `RenderJob::cancel` (renderer.cpp lines 637–643): transitions to
`Cancelled` only from `Pending` or `Running`; otherwise a no-op. -/
def RenderJob.cancel (j : RenderJob) : RenderJob :=
  if j.status = .Pending ∨ j.status = .Running then { j with status := .Cancelled } else j

/-- `RenderJob::get_result` (renderer.cpp lines 645–658).  The C++ first
calls `wait()`; on a terminal job `wait` returns immediately, so on
terminal states the function is pure: if `Completed` it returns a success
`Result` holding `std::move(impl_->result)` — moving the stored buffer
out and leaving a null pointer behind, status unchanged — else a
`RenderError`.  (On a non-terminal job the C++ blocks; the model is only
applied to terminal jobs.) -/
def RenderJob.get_result (j : RenderJob) :
    Except RenderErr (Option ImageBuffer) × RenderJob :=
  if j.status = .Completed then (.ok j.result, { j with result := none })
  else (.error ⟨.RenderError, "Render job did not complete successfully"⟩, j)

/-- `AsyncRenderer::queue_render` (renderer.cpp lines 669–676): the body is
a TODO stub — it constructs a fresh job and returns it without queuing any
work (no worker pool exists; `AsyncRenderer::Impl` is empty). -/
def queue_render (_page : PageModel) (_opts : RenderOptions) : RenderJob :=
  RenderJob.new

/-- `AsyncRenderer::queue_batch` (renderer.cpp lines 678–693): one
`queue_render` job per index whose `get_page` is non-null; missing pages
are skipped. -/
def queue_batch (doc : DocModel) (page_indices : List ℤ) (opts : RenderOptions) :
    List RenderJob :=
  page_indices.filterMap (fun idx => (doc.get_page idx).map (fun p => queue_render p opts))

/-- `AsyncRenderer::pending_count` (renderer.cpp lines 695–698): the body
is a TODO stub returning the constant 0. -/
def pending_count : ℤ := 0

/-- `AsyncRenderer::wait_all` (renderer.cpp lines 704–706): the body is an
empty TODO stub — it touches no job and returns at once. -/
def wait_all (jobs : List RenderJob) : List RenderJob := jobs

/-- The spec's claimed effective options for `render_page_scaled`
(spec §4.2): dpi replaced by `72 * scale`, every other field unchanged. -/
def spec_scaled_options (opts : RenderOptions) (scale : ℚ) : RenderOptions :=
  { opts with dpi := 72 * scale }

/-- The spec's claimed effective options for `render_page_to_size`
(spec §4.2): dpi `= 72 * min(width / page_width, height / page_height)`,
every other field unchanged. -/
def spec_to_size_options (opts : RenderOptions) (page_width page_height : ℚ)
    (width height : ℤ) : RenderOptions :=
  { opts with dpi := 72 * min ((width : ℚ) / page_width) ((height : ℚ) / page_height) }

/-! ## General lemmas about the embedding -/

theorem cppInt_eq_floor {q : ℚ} (h : 0 ≤ q) : cppInt q = ⌊q⌋ := if_pos h

/-! ## Claims -/

/-- C2, counterexample: a 1×1 pt page at 126 DPI.  `1 * 126/72 = 1.75`;
`calculate_dimensions` truncates to `(1, 1)` (via `static_cast<int>`)
while the claimed rounding to nearest gives `2`. -/
theorem calculate_dimensions_counterexample :
    calculate_dimensions (some ⟨1, 1, 0⟩) 126 = (1, 1) ∧
    round ((1 : ℚ) * 126 / 72) = 2 ∧ (1 : ℤ) ≠ 2 := by
  refine ⟨?_, ?_, by decide⟩
  · show (cppInt ((1 : ℚ) * (126 / 72)), cppInt ((1 : ℚ) * (126 / 72))) = (1, 1)
    norm_num [cppInt]
  · norm_num [round_eq]

/-- C2, amended: for a non-null page with non-negative extents and `d > 0`,
`calculate_dimensions` truncates (floor, for these non-negative values)
rather than rounds: it returns `(⌊w·d/72⌋, ⌊h·d/72⌋)`; for a null page it
returns `(0, 0)` with no other failure mode. -/
theorem calculate_dimensions_spec (pg : PageModel) (d : ℚ) (hw : 0 ≤ pg.width)
    (hh : 0 ≤ pg.height) (hd : 0 < d) :
    calculate_dimensions (some pg) d = (⌊pg.width * d / 72⌋, ⌊pg.height * d / 72⌋) ∧
    calculate_dimensions none d = (0, 0) := by
  refine ⟨?_, rfl⟩
  show (cppInt (pg.width * (d / 72)), cppInt (pg.height * (d / 72))) = _
  have h1 : (0 : ℚ) ≤ pg.width * (d / 72) := by positivity
  have h2 : (0 : ℚ) ≤ pg.height * (d / 72) := by positivity
  rw [cppInt_eq_floor h1, cppInt_eq_floor h2, mul_div_assoc, mul_div_assoc]

theorem calculate_dimensions_spec_witness :
    calculate_dimensions (some ⟨612, 792, 0⟩) 150 =
      (⌊(612 : ℚ) * 150 / 72⌋, ⌊(792 : ℚ) * 150 / 72⌋) ∧
    calculate_dimensions none 150 = (0, 0) :=
  calculate_dimensions_spec ⟨612, 792, 0⟩ 150 (by norm_num) (by norm_num) (by norm_num)

/-- C4: for every point and `d > 0`, `pixel_to_page ∘ page_to_pixel` is the
identity — the two affine transforms, including the Y-axis flip, are exact
inverses (so in particular the round trip is within any tolerance). -/
theorem pixel_page_roundtrip (p : Point) (d h : ℚ) (hd : 0 < d) :
    pixel_to_page (page_to_pixel p d h) d h = p := by
  obtain ⟨x, y⟩ := p
  unfold page_to_pixel pixel_to_page
  have hd' : d ≠ 0 := ne_of_gt hd
  simp only [Point.mk.injEq]
  constructor
  · field_simp
  · field_simp

theorem pixel_page_roundtrip_witness :
    pixel_to_page (page_to_pixel ⟨3, 5⟩ 150 792) 150 792 = ⟨3, 5⟩ :=
  pixel_page_roundtrip ⟨3, 5⟩ 150 792 (by norm_num)

/-- C10: on a `Completed` job, `get_result` moves the stored buffer out
(`std::move(impl_->result)`), leaving the status `Completed` but the
stored pointer null; a second `get_result` call therefore returns a
success `Result` whose contained buffer is null — the result is
consumable exactly once. -/
theorem get_result_consumes_buffer (j : RenderJob) (h : j.status = .Completed) :
    j.get_result.1 = .ok j.result ∧
    j.get_result.2.status = .Completed ∧
    j.get_result.2.get_result.1 = .ok none := by
  unfold RenderJob.get_result
  rw [if_pos h]
  refine ⟨rfl, h, ?_⟩
  simp only [h, if_pos]

theorem get_result_consumes_buffer_witness :
    (RenderJob.mk .Completed 1 (some ⟨1, 1, 3, .RGB24, [9, 9, 9]⟩)).get_result.1 =
      .ok (some ⟨1, 1, 3, .RGB24, [9, 9, 9]⟩) ∧
    (RenderJob.mk .Completed 1 (some ⟨1, 1, 3, .RGB24, [9, 9, 9]⟩)).get_result.2.status =
      .Completed ∧
    (RenderJob.mk .Completed 1 (some ⟨1, 1, 3, .RGB24, [9, 9, 9]⟩)).get_result.2.get_result.1 =
      .ok none :=
  get_result_consumes_buffer (RenderJob.mk .Completed 1 (some ⟨1, 1, 3, .RGB24, [9, 9, 9]⟩)) rfl

/-- C6: cancelling a `Pending` job puts it in the terminal state
`Cancelled`; `cancel` is a no-op on a job already in a terminal state; and
`get_result` on a `Cancelled` job returns a `RenderError` and never a
buffer. -/
theorem renderjob_cancel_spec (j : RenderJob) :
    (j.status = .Pending →
      j.cancel.status = .Cancelled ∧ j.cancel.status.isTerminal = true) ∧
    (j.status.isTerminal = true → j.cancel = j) ∧
    (j.status = .Cancelled →
      ∃ e, j.get_result.1 = .error e ∧ e.code = .RenderError ∧
        ∀ b, j.get_result.1 ≠ .ok b) := by
  refine ⟨?_, ?_, ?_⟩
  · intro hp
    unfold RenderJob.cancel
    rw [if_pos (Or.inl hp)]
    exact ⟨rfl, rfl⟩
  · intro ht
    unfold RenderJob.cancel
    rw [if_neg]
    rintro (hs | hs) <;> rw [hs] at ht <;> simp [JobStatus.isTerminal] at ht
  · intro hc
    unfold RenderJob.get_result
    rw [if_neg (by rw [hc]; intro hh; cases hh)]
    exact ⟨_, rfl, rfl, fun b hb => by cases hb⟩

/-- C3 (evaluation of the code at the failing scenario): `render_page`
neither reads nor writes `Impl::cache_` — the renderer state (cache map
included) is returned unchanged by every call and by every sequence of
calls, and the per-call results are independent of the cache contents.
Hence no entry is ever inserted, nothing is ever evicted, and a cache hit
can never short-circuit re-rasterization: every call re-renders. -/
theorem render_page_never_uses_cache (eng : Engine) (st₁ st₂ : RendererState)
    (page : Option PageModel) (opts : RenderOptions)
    (pages : List (Option PageModel)) :
    (render_page_st eng st₁ page opts).2 = st₁ ∧
    (render_page_st eng st₁ page opts).1 = (render_page_st eng st₂ page opts).1 ∧
    (render_sequence eng st₁ pages opts).2 = st₁ ∧
    (render_sequence eng st₁ pages opts).1 = (render_sequence eng st₂ pages opts).1 := by
  refine ⟨rfl, rfl, ?_, ?_⟩
  · induction pages with
    | nil => rfl
    | cons p rest ih => simpa [render_sequence, render_page_st] using ih
  · induction pages with
    | nil => rfl
    | cons p rest ih => simpa [render_sequence, render_page_st] using ih

/-- Every job produced by `queue_batch` is the freshly constructed
`RenderJob.new` (Pending, progress 0, no result): `queue_render` is a stub
that queues nothing. -/
theorem queue_batch_eq_replicate (doc : DocModel) (page_indices : List ℤ)
    (opts : RenderOptions) :
    queue_batch doc page_indices opts =
      List.replicate (queue_batch doc page_indices opts).length RenderJob.new := by
  rw [List.eq_replicate_iff]
  refine ⟨rfl, ?_⟩
  intro j hj
  obtain ⟨idx, -, hmap⟩ := List.mem_filterMap.mp hj
  obtain ⟨p, -, rfl⟩ := Option.map_eq_some'.mp hmap
  rfl

/-- C5 (evaluation of the code): after `queue_batch` and `wait_all`, every
job's status is still `Pending` — none is terminal — because
`queue_render` never hands work to any worker (there is no pool) and
`wait_all` is an empty stub; `pending_count()` returns 0 only because it
is hard-coded to 0. -/
theorem queue_batch_wait_all_stays_pending (doc : DocModel) (page_indices : List ℤ)
    (opts : RenderOptions) :
    (wait_all (queue_batch doc page_indices opts)).map RenderJob.status =
      List.replicate (queue_batch doc page_indices opts).length .Pending ∧
    (wait_all (queue_batch doc page_indices opts)).map (fun j => j.status.isTerminal) =
      List.replicate (queue_batch doc page_indices opts).length false ∧
    pending_count = 0 := by
  refine ⟨?_, ?_, rfl⟩ <;>
    rw [wait_all, queue_batch_eq_replicate doc page_indices opts] <;>
    simp [JobStatus.isTerminal, RenderJob.new]

/-- C7: `render_page_to_buffer` returns `false` and leaves the caller's
buffer byte-for-byte untouched whenever rendering fails or the buffer is
smaller (by as little as one byte) than the image's byte count; when the
buffer is large enough and rendering succeeds it writes exactly the image
bytes over the front of the buffer and returns `true`. -/
theorem render_page_to_buffer_spec (eng : Engine) (page : Option PageModel)
    (buffer : List ℕ) (opts : RenderOptions) :
    (∀ e, render_page eng page opts = .error e →
      render_page_to_buffer eng page buffer opts = (false, buffer)) ∧
    (∀ img, render_page eng page opts = .ok img → buffer.length < img.size →
      render_page_to_buffer eng page buffer opts = (false, buffer)) ∧
    (∀ img, render_page eng page opts = .ok img → img.size ≤ buffer.length →
      render_page_to_buffer eng page buffer opts =
        (true, img.data ++ buffer.drop img.size) ∧
      (img.data ++ buffer.drop img.size).length = buffer.length ∧
      (img.data ++ buffer.drop img.size).take img.size = img.data) := by
  refine ⟨?_, ?_, ?_⟩
  · intro e he
    unfold render_page_to_buffer
    rw [he]
  · intro img hok hlt
    unfold render_page_to_buffer
    rw [hok]
    simp only [if_pos hlt]
  · intro img hok hle
    unfold render_page_to_buffer
    rw [hok]
    refine ⟨?_, ?_, ?_⟩
    · show (if img.size > buffer.length then (false, buffer)
        else (true, img.data ++ buffer.drop img.size)) =
          (true, img.data ++ buffer.drop img.size)
      rw [if_neg (by omega)]
    · rw [List.length_append, List.length_drop]
      have hsz : img.size = img.data.length := rfl
      omega
    · show (img.data ++ buffer.drop img.size).take img.data.length = img.data
      exact List.take_left img.data _

/-- An engine that always succeeds, returning a fixed 3-byte 1×1 image. -/
def probeEngine : Engine := ⟨true, fun _ _ => .ok ⟨1, 1, 3, .RGB24, [10, 20, 30]⟩⟩

theorem render_page_to_buffer_spec_witness :
    render_page_to_buffer probeEngine (some ⟨612, 792, 7⟩) [0, 0] RenderOptions.default =
      (false, [0, 0]) ∧
    render_page_to_buffer probeEngine (some ⟨612, 792, 7⟩) [0, 0, 0, 0] RenderOptions.default =
      (true, [10, 20, 30, 0]) := by
  have h := render_page_to_buffer_spec probeEngine (some ⟨612, 792, 7⟩) [0, 0]
    RenderOptions.default
  have h' := render_page_to_buffer_spec probeEngine (some ⟨612, 792, 7⟩) [0, 0, 0, 0]
    RenderOptions.default
  refine ⟨h.2.1 ⟨1, 1, 3, .RGB24, [10, 20, 30]⟩ rfl (by decide), ?_⟩
  have := (h'.2.2 ⟨1, 1, 3, .RGB24, [10, 20, 30]⟩ rfl (by decide)).1
  simpa using this

instance : DecidableEq (Except RenderErr ImageBuffer)
  | .ok x, .ok y =>
    if h : x = y then .isTrue (h ▸ rfl) else .isFalse (fun hh => h (by cases hh; rfl))
  | .error x, .error y =>
    if h : x = y then .isTrue (h ▸ rfl) else .isFalse (fun hh => h (by cases hh; rfl))
  | .ok _, .error _ => .isFalse (fun hh => by cases hh)
  | .error _, .ok _ => .isFalse (fun hh => by cases hh)

/-- An engine whose output records the requested DPI (truncated) in the
buffer width, making the options passed to `render_page` observable. -/
def dpiProbeEngine : Engine := ⟨true, fun _ o => .ok ⟨cppInt o.dpi, 0, 0, .RGB24, []⟩⟩

/-- A 612×792 pt page (US Letter) with handle 0. -/
def pageA : PageModel := ⟨612, 792, 0⟩

/-- C8, counterexample: with default options (`dpi = 150`) and
`scale_x = scale_y = 2`, `render_page_scaled` renders at
`dpi = 150 * 2 = 300`, not at the claimed effective DPI `72 * 2 = 144`:
the delegated call is observably different from the claimed one. -/
theorem render_page_scaled_counterexample :
    render_page_scaled dpiProbeEngine (some pageA) 2 2 RenderOptions.default ≠
      render_page dpiProbeEngine (some pageA)
        (spec_scaled_options RenderOptions.default 2) ∧
    (scaled_options RenderOptions.default 2 2).dpi = 300 ∧
    (spec_scaled_options RenderOptions.default 2).dpi = 144 := by
  have h1 : (scaled_options RenderOptions.default 2 2).dpi = 300 := by
    norm_num [scaled_options, RenderOptions.default]
  have h2 : (spec_scaled_options RenderOptions.default 2).dpi = 144 := by
    norm_num [spec_scaled_options, RenderOptions.default]
  refine ⟨?_, h1, h2⟩
  have hl : render_page_scaled dpiProbeEngine (some pageA) 2 2 RenderOptions.default =
      .ok ⟨300, 0, 0, .RGB24, []⟩ := by
    have hstep : render_page_scaled dpiProbeEngine (some pageA) 2 2 RenderOptions.default =
        Except.ok (⟨cppInt (scaled_options RenderOptions.default 2 2).dpi, 0, 0,
          ImageFormat.RGB24, []⟩ : ImageBuffer) := rfl
    rw [hstep, h1]
    norm_num [cppInt]
  have hr : render_page dpiProbeEngine (some pageA)
      (spec_scaled_options RenderOptions.default 2) = .ok ⟨144, 0, 0, .RGB24, []⟩ := by
    have hstep : render_page dpiProbeEngine (some pageA)
        (spec_scaled_options RenderOptions.default 2) =
        Except.ok (⟨cppInt (spec_scaled_options RenderOptions.default 2).dpi, 0, 0,
          ImageFormat.RGB24, []⟩ : ImageBuffer) := rfl
    rw [hstep, h2]
    norm_num [cppInt]
  rw [hl, hr]
  simp

/-- C8, amended: `render_page_scaled` delegates to `render_page` with the
dpi **multiplied by the average of the two scales**
(`dpi' = dpi * (scale_x + scale_y) / 2`), not set to `72 * scale`;
`render_page_to_size` (non-null page) delegates with
`dpi = 72 * min(width/page_width, height/page_height)` exactly as claimed
(its option transform coincides with the spec's); in both wrappers every
option field other than dpi is unchanged (overwriting dpi back yields the
original options). -/
theorem render_wrappers_delegate (eng : Engine) (page : Option PageModel)
    (scale_x scale_y : ℚ) (pg : PageModel) (w h : ℤ) (opts : RenderOptions) :
    render_page_scaled eng page scale_x scale_y opts =
      render_page eng page (scaled_options opts scale_x scale_y) ∧
    (scaled_options opts scale_x scale_y).dpi = opts.dpi * ((scale_x + scale_y) / 2) ∧
    { scaled_options opts scale_x scale_y with dpi := opts.dpi } = opts ∧
    render_page_to_size eng (some pg) w h opts =
      render_page eng (some pg) (to_size_options opts pg w h) ∧
    to_size_options opts pg w h = spec_to_size_options opts pg.width pg.height w h ∧
    { to_size_options opts pg w h with dpi := opts.dpi } = opts ∧
    render_page_to_size eng none w h opts = .error ⟨.InvalidArgument, "Invalid page"⟩ :=
  ⟨rfl, rfl, rfl, rfl, rfl, rfl, rfl⟩

/-- The result slot `render_pages` produces for one requested index: the
render result when the page is found, an `InvalidArgument` error slot when
the lookup fails. -/
def render_pages_item (eng : Engine) (doc : DocModel) (opts : RenderOptions)
    (idx : ℤ) : RenderResult :=
  match doc.get_page idx with
  | some p => render_page eng (some p) opts
  | none => .error ⟨.InvalidArgument, "Invalid page index"⟩

theorem render_pages_go_no_callback (eng : Engine) (doc : DocModel)
    (opts : RenderOptions) (total : ℤ) :
    ∀ (i : ℤ) (idxs : List ℤ),
      render_pages_go eng doc opts none total i idxs =
        idxs.map (render_pages_item eng doc opts)
  | _, [] => rfl
  | i, idx :: rest => by
    show render_pages_item eng doc opts idx
        :: render_pages_go eng doc opts none total (i + 1) rest =
      (idx :: rest).map (render_pages_item eng doc opts)
    rw [List.map_cons]
    exact congrArg _ (render_pages_go_no_callback eng doc opts total (i + 1) rest)

/-- `Document::get_page` at a natural index is exactly list lookup: in
range it returns the page, out of range `null`. -/
theorem get_page_natCast (d : DocModel) (i : ℕ) :
    d.get_page (i : ℤ) = d.pages.get? i := by
  unfold DocModel.get_page DocModel.page_count
  split
  · next h =>
    rcases h with h | h
    · omega
    · exact (List.get?_eq_none.mpr (by exact_mod_cast h)).symm
  · next h =>
    rw [Int.toNat_natCast]

theorem filterMap_get?_range {α : Type} (g : PageModel → α) :
    ∀ ps : List PageModel,
      (List.range ps.length).filterMap (fun i => (ps.get? i).map g) = ps.map g
  | [] => rfl
  | p :: ps => by
    rw [List.length_cons, List.range_succ_eq_map]
    simp only [List.filterMap_cons, List.get?_cons_zero, Option.map_some',
      List.filterMap_map, List.map_cons]
    refine congrArg _ ?_
    have heq : ((fun i => ((p :: ps).get? i).map g) ∘ Nat.succ) =
        fun i => (ps.get? i).map g := by
      funext i
      simp [Function.comp]
    rw [heq]
    exact filterMap_get?_range g ps

/-- Pre-composing the lookup with the `ℕ → ℤ` coercion turns `get_page`
into plain list lookup, elementwise along any index list. -/
theorem filterMap_get_page_map_cast {α : Type} (d : DocModel) (g : PageModel → α) :
    ∀ l : List ℕ,
      (l.map (fun i : ℕ => (i : ℤ))).filterMap (fun i => (d.get_page i).map g) =
        l.filterMap (fun i => (d.pages.get? i).map g)
  | [] => rfl
  | i :: rest => by
    simp only [List.map_cons, List.filterMap_cons, get_page_natCast]
    cases h : d.pages.get? i with
    | none =>
      simp only [Option.map_none']
      exact filterMap_get_page_map_cast d g rest
    | some p =>
      simp only [Option.map_some']
      exact congrArg _ (filterMap_get_page_map_cast d g rest)

theorem render_all_thumbnails_go_no_callback (eng : Engine) (doc : DocModel)
    (mw mh : ℤ) (total : ℤ) :
    ∀ idxs : List ℤ,
      render_all_thumbnails_go eng doc mw mh none total idxs =
        idxs.filterMap (fun i => (doc.get_page i).map
          (fun p => render_thumbnail eng (some p) mw mh true))
  | [] => rfl
  | i :: rest => by
    show (match doc.get_page i with
      | some p => render_thumbnail eng (some p) mw mh true
          :: render_all_thumbnails_go eng doc mw mh none total rest
      | none => render_all_thumbnails_go eng doc mw mh none total rest) = _
    rw [List.filterMap_cons]
    cases h : doc.get_page i with
    | none =>
      simp only [h, Option.map_none]
      exact render_all_thumbnails_go_no_callback eng doc mw mh total rest
    | some p =>
      simp only [h, Option.map_some]
      exact congrArg _ (render_all_thumbnails_go_no_callback eng doc mw mh total rest)

/-- C9: with no progress callback installed, every batch API yields one
result slot per processed item and never aborts on a failure.
`render_pages` (and `render_all_pages`) maps **every** requested index —
lookable or not — to its own slot, a failed lookup becoming an
`InvalidArgument` error slot; `render_all_thumbnails` yields exactly one
slot per document page (its in-range lookups never fail, cf.
`Document::get_page`), with render failures carried in their slots. -/
theorem batch_per_item_isolation (eng : Engine) (doc : DocModel)
    (page_indices : List ℤ) (opts : RenderOptions) (mw mh : ℤ) :
    render_pages eng doc page_indices opts none =
      page_indices.map (render_pages_item eng doc opts) ∧
    (render_pages eng doc page_indices opts none).length = page_indices.length ∧
    (∀ idx, doc.get_page idx = none →
      render_pages_item eng doc opts idx =
        .error ⟨.InvalidArgument, "Invalid page index"⟩) ∧
    render_all_pages eng (some doc) opts none =
      (intRange doc.page_count).map (render_pages_item eng doc opts) ∧
    render_all_thumbnails eng (some doc) mw mh none =
      doc.pages.map (fun p => render_thumbnail eng (some p) mw mh true) ∧
    (render_all_thumbnails eng (some doc) mw mh none).length = doc.pages.length := by
  have hpages : ∀ idxs : List ℤ, render_pages eng doc idxs opts none =
      idxs.map (render_pages_item eng doc opts) := fun idxs =>
    render_pages_go_no_callback eng doc opts (idxs.length : ℤ) 0 idxs
  have hthumbs : render_all_thumbnails eng (some doc) mw mh none =
      doc.pages.map (fun p => render_thumbnail eng (some p) mw mh true) := by
    show render_all_thumbnails_go eng doc mw mh none doc.page_count
      (intRange doc.page_count) = _
    rw [render_all_thumbnails_go_no_callback]
    have h1 : intRange doc.page_count =
        (List.range doc.pages.length).map (fun i : ℕ => (i : ℤ)) := by
      unfold intRange DocModel.page_count
      rw [Int.toNat_natCast]
    rw [h1, filterMap_get_page_map_cast]
    exact filterMap_get?_range _ doc.pages
  refine ⟨hpages page_indices, ?_, ?_, hpages _, hthumbs, ?_⟩
  · rw [hpages page_indices, List.length_map]
  · intro idx hnone
    unfold render_pages_item
    rw [hnone]
  · rw [hthumbs, List.length_map]

/-- A two-page document (both pages US Letter). -/
def doc2 : DocModel := ⟨[⟨612, 792, 0⟩, ⟨612, 792, 1⟩]⟩

theorem batch_per_item_isolation_witness :
    render_pages probeEngine doc2 [0, 5, 1] RenderOptions.default none =
      [0, 5, 1].map (render_pages_item probeEngine doc2 RenderOptions.default) ∧
    render_pages_item probeEngine doc2 RenderOptions.default 5 =
      .error ⟨.InvalidArgument, "Invalid page index"⟩ ∧
    (render_all_thumbnails probeEngine (some doc2) 64 64 none).length =
      doc2.pages.length :=
  ⟨(batch_per_item_isolation probeEngine doc2 [0, 5, 1] RenderOptions.default 64 64).1,
   (batch_per_item_isolation probeEngine doc2 [0, 5, 1]
      RenderOptions.default 64 64).2.2.1 5 (by decide),
   (batch_per_item_isolation probeEngine doc2 [0, 5, 1]
      RenderOptions.default 64 64).2.2.2.2.2⟩

theorem renderjob_cancel_spec_witness :
    ((RenderJob.mk .Pending 0 none).cancel.status = .Cancelled ∧
      (RenderJob.mk .Pending 0 none).cancel.status.isTerminal = true) ∧
    (RenderJob.mk .Completed 1 none).cancel = RenderJob.mk .Completed 1 none ∧
    (∃ e, (RenderJob.mk .Cancelled 0 none).get_result.1 = .error e ∧
      e.code = .RenderError ∧
      ∀ b, (RenderJob.mk .Cancelled 0 none).get_result.1 ≠ .ok b) :=
  ⟨(renderjob_cancel_spec (RenderJob.mk .Pending 0 none)).1 rfl,
   (renderjob_cancel_spec (RenderJob.mk .Completed 1 none)).2.1 rfl,
   (renderjob_cancel_spec (RenderJob.mk .Cancelled 0 none)).2.2 rfl⟩

/-! ## C1: the tile partition -/

theorem cast_min_le_left (a b : ℤ) : ((min a b : ℤ) : ℚ) ≤ ((a : ℤ) : ℚ) := by
  exact_mod_cast min_le_left a b

theorem mem_calculate_tiles (pg : PageModel) (tw th : ℤ) (opts : RenderOptions)
    (t : TileInfo) :
    t ∈ calculate_tiles (some pg) tw th opts ↔
      ∃ r c : ℕ, r < (⌈pg.height / (th : ℚ)⌉).toNat ∧
        c < (⌈pg.width / (tw : ℚ)⌉).toNat ∧
        t = mkTile pg.width pg.height tw th (r : ℤ) (c : ℤ) := by
  unfold calculate_tiles
  simp only [List.mem_flatMap, List.mem_map, List.mem_range]
  constructor
  · rintro ⟨r, hr, c, hc, rfl⟩
    exact ⟨r, c, hr, hc, rfl⟩
  · rintro ⟨r, c, hr, hc, rfl⟩
    exact ⟨r, hr, c, hc, rfl⟩

/-- One axis of the cover: every coordinate `0 ≤ x < ⌊W⌋` lies in the
half-open span of some tile column `c < ceil(W / tw)`. -/
theorem tile_cover_exists (W : ℚ) (tw : ℤ) (hW : 0 ≤ W) (htw : 1 ≤ tw)
    (x : ℚ) (hx0 : 0 ≤ x) (hx1 : x < ((cppInt W : ℤ) : ℚ)) :
    ∃ c : ℕ, c < (⌈W / (tw : ℚ)⌉).toNat ∧
      (((c : ℤ) * tw : ℤ) : ℚ) ≤ x ∧
      x < ((min (((c : ℤ) + 1) * tw) (cppInt W) : ℤ) : ℚ) := by
  have htw0 : (0 : ℚ) < (tw : ℚ) := by exact_mod_cast (by omega : (0 : ℤ) < tw)
  have hfl : cppInt W = ⌊W⌋ := cppInt_eq_floor hW
  have hc0nn : 0 ≤ ⌊x / (tw : ℚ)⌋ := Int.floor_nonneg.mpr (by positivity)
  have hle : ((⌊x / (tw : ℚ)⌋ : ℚ)) * (tw : ℚ) ≤ x :=
    (le_div_iff₀ htw0).mp (Int.floor_le _)
  have hlt : x < ((⌊x / (tw : ℚ)⌋ : ℚ) + 1) * (tw : ℚ) :=
    (div_lt_iff₀ htw0).mp (Int.lt_floor_add_one _)
  have hxW : x < W := by
    refine lt_of_lt_of_le hx1 ?_
    rw [hfl]
    exact_mod_cast Int.floor_le W
  have hcols : ⌊x / (tw : ℚ)⌋ < ⌈W / (tw : ℚ)⌉ := by
    apply Int.floor_lt.mpr
    calc x / (tw : ℚ) < W / (tw : ℚ) := by gcongr
    _ ≤ ((⌈W / (tw : ℚ)⌉ : ℤ) : ℚ) := Int.le_ceil _
  refine ⟨(⌊x / (tw : ℚ)⌋).toNat, by omega, ?_, ?_⟩
  · rw [Int.toNat_of_nonneg hc0nn]
    push_cast
    exact hle
  · rw [Int.toNat_of_nonneg hc0nn]
    push_cast [lt_min_iff]
    refine ⟨hlt, ?_⟩
    rw [hfl] at hx1 ⊢
    exact_mod_cast hx1

/-- One axis of disjointness: a coordinate lies in the nominal span of at
most one tile column. -/
theorem tile_cover_unique (tw : ℤ) (htw : 1 ≤ tw) (x : ℚ) (c₁ c₂ : ℤ)
    (h₁ : ((c₁ * tw : ℤ) : ℚ) ≤ x) (h₁' : x < (((c₁ + 1) * tw : ℤ) : ℚ))
    (h₂ : ((c₂ * tw : ℤ) : ℚ) ≤ x) (h₂' : x < (((c₂ + 1) * tw : ℤ) : ℚ)) :
    c₁ = c₂ := by
  have k₁ : c₁ * tw < (c₂ + 1) * tw := by exact_mod_cast lt_of_le_of_lt h₁ h₂'
  have k₂ : c₂ * tw < (c₁ + 1) * tw := by exact_mod_cast lt_of_le_of_lt h₂ h₁'
  have htw0 : (0 : ℤ) < tw := by omega
  have l₁ : c₁ < c₂ + 1 := lt_of_mul_lt_mul_right k₁ htw0.le
  have l₂ : c₂ < c₁ + 1 := lt_of_mul_lt_mul_right k₂ htw0.le
  omega

/-- C1, amended: for a non-null page with non-negative extents and tile
sizes ≥ 1, the tiles' `page_rect`s exactly partition the **truncated**
page box `[0, ⌊W⌋) × [0, ⌊H⌋)` — the code clamps the integer tile corners
against `static_cast<int>(page_width/height)` — not the claimed
`[0, W) × [0, H)`: every point of the truncated box lies in exactly one
tile (no gaps, no overlaps), and every tile stays inside the truncated
box.  (For fractional page extents the strip `[⌊W⌋, W)` is uncovered and
last-column tiles can be zero-width even though `W ≠ 0`; see the
counterexample.) -/
theorem calculate_tiles_partition (pg : PageModel) (tw th : ℤ) (opts : RenderOptions)
    (hw : 0 ≤ pg.width) (hh : 0 ≤ pg.height) (htw : 1 ≤ tw) (hth : 1 ≤ th)
    (x y : ℚ) (hx0 : 0 ≤ x) (hx1 : x < ((cppInt pg.width : ℤ) : ℚ))
    (hy0 : 0 ≤ y) (hy1 : y < ((cppInt pg.height : ℤ) : ℚ)) :
    (∃ t ∈ calculate_tiles (some pg) tw th opts, t.page_rect.containsPt x y) ∧
    (∀ t₁ ∈ calculate_tiles (some pg) tw th opts,
      ∀ t₂ ∈ calculate_tiles (some pg) tw th opts,
        t₁.page_rect.containsPt x y → t₂.page_rect.containsPt x y → t₁ = t₂) ∧
    (∀ t ∈ calculate_tiles (some pg) tw th opts,
      0 ≤ t.page_rect.x0 ∧ t.page_rect.x1 ≤ ((cppInt pg.width : ℤ) : ℚ) ∧
      0 ≤ t.page_rect.y0 ∧ t.page_rect.y1 ≤ ((cppInt pg.height : ℤ) : ℚ)) := by
  obtain ⟨c, hc, hcx0, hcx1⟩ := tile_cover_exists pg.width tw hw htw x hx0 hx1
  obtain ⟨r, hr, hry0, hry1⟩ := tile_cover_exists pg.height th hh hth y hy0 hy1
  refine ⟨?_, ?_, ?_⟩
  · refine ⟨mkTile pg.width pg.height tw th (r : ℤ) (c : ℤ),
      (mem_calculate_tiles pg tw th opts _).mpr ⟨r, c, hr, hc, rfl⟩, ?_⟩
    exact ⟨hcx0, hcx1, hry0, hry1⟩
  · rintro t₁ h₁ t₂ h₂ hp₁ hp₂
    obtain ⟨r₁, c₁, hr₁, hc₁, rfl⟩ := (mem_calculate_tiles pg tw th opts t₁).mp h₁
    obtain ⟨r₂, c₂, hr₂, hc₂, rfl⟩ := (mem_calculate_tiles pg tw th opts t₂).mp h₂
    obtain ⟨px₁, px₁', py₁, py₁'⟩ := hp₁
    obtain ⟨px₂, px₂', py₂, py₂'⟩ := hp₂
    have hx₁' : x < ((((c₁ : ℤ) + 1) * tw : ℤ) : ℚ) :=
      lt_of_lt_of_le px₁' (cast_min_le_left (((c₁ : ℤ) + 1) * tw) (cppInt pg.width))
    have hx₂' : x < ((((c₂ : ℤ) + 1) * tw : ℤ) : ℚ) :=
      lt_of_lt_of_le px₂' (cast_min_le_left (((c₂ : ℤ) + 1) * tw) (cppInt pg.width))
    have hy₁' : y < ((((r₁ : ℤ) + 1) * th : ℤ) : ℚ) :=
      lt_of_lt_of_le py₁' (cast_min_le_left (((r₁ : ℤ) + 1) * th) (cppInt pg.height))
    have hy₂' : y < ((((r₂ : ℤ) + 1) * th : ℤ) : ℚ) :=
      lt_of_lt_of_le py₂' (cast_min_le_left (((r₂ : ℤ) + 1) * th) (cppInt pg.height))
    have ec : (c₁ : ℤ) = (c₂ : ℤ) := tile_cover_unique tw htw x _ _ px₁ hx₁' px₂ hx₂'
    have er : (r₁ : ℤ) = (r₂ : ℤ) := tile_cover_unique th hth y _ _ py₁ hy₁' py₂ hy₂'
    have ec' : c₁ = c₂ := by exact_mod_cast ec
    have er' : r₁ = r₂ := by exact_mod_cast er
    rw [ec', er']
  · rintro t ht
    obtain ⟨r, c, hr, hc, rfl⟩ := (mem_calculate_tiles pg tw th opts t).mp ht
    refine ⟨?_, ?_, ?_, ?_⟩
    · show (0 : ℚ) ≤ (((c : ℤ) * tw : ℤ) : ℚ)
      exact_mod_cast mul_nonneg (Int.natCast_nonneg c) (by omega : (0 : ℤ) ≤ tw)
    · show ((min (((c : ℤ) + 1) * tw) (cppInt pg.width) : ℤ) : ℚ) ≤ _
      exact_mod_cast min_le_right (((c : ℤ) + 1) * tw) (cppInt pg.width)
    · show (0 : ℚ) ≤ (((r : ℤ) * th : ℤ) : ℚ)
      exact_mod_cast mul_nonneg (Int.natCast_nonneg r) (by omega : (0 : ℤ) ≤ th)
    · show ((min (((r : ℤ) + 1) * th) (cppInt pg.height) : ℤ) : ℚ) ≤ _
      exact_mod_cast min_le_right (((r : ℤ) + 1) * th) (cppInt pg.height)

theorem calculate_tiles_partition_witness :
    (∃ t ∈ calculate_tiles (some ⟨612, 792, 0⟩) 100 100 RenderOptions.default,
      t.page_rect.containsPt 550 700) ∧
    (∀ t₁ ∈ calculate_tiles (some ⟨612, 792, 0⟩) 100 100 RenderOptions.default,
      ∀ t₂ ∈ calculate_tiles (some ⟨612, 792, 0⟩) 100 100 RenderOptions.default,
        t₁.page_rect.containsPt 550 700 → t₂.page_rect.containsPt 550 700 →
          t₁ = t₂) ∧
    (∀ t ∈ calculate_tiles (some ⟨612, 792, 0⟩) 100 100 RenderOptions.default,
      0 ≤ t.page_rect.x0 ∧ t.page_rect.x1 ≤ ((cppInt (612 : ℚ) : ℤ) : ℚ) ∧
      0 ≤ t.page_rect.y0 ∧ t.page_rect.y1 ≤ ((cppInt (792 : ℚ) : ℤ) : ℚ)) :=
  calculate_tiles_partition ⟨612, 792, 0⟩ 100 100 RenderOptions.default
    (by norm_num) (by norm_num) (by norm_num) (by norm_num) 550 700
    (by norm_num) (by norm_num [cppInt]) (by norm_num) (by norm_num [cppInt])

/-- C1, counterexample: a 0.5 × 1 pt page tiled with 1 × 1 tiles produces
exactly one tile, whose `page_rect` is `[0,0) × [0,1)`: the page point
`(1/4, 1/2)` lies inside `[0, 0.5) × [0, 1)` yet in no tile (a gap), and
that tile's `page_rect` has zero width although the page width `1/2` is
non-zero — refuting both the exact-cover and the never-zero-sized parts
of the claim. -/
theorem calculate_tiles_counterexample :
    ((0 : ℚ) ≤ 1/4 ∧ (1/4 : ℚ) < 1/2 ∧ (0 : ℚ) ≤ 1/2 ∧ (1/2 : ℚ) < 1) ∧
    (∀ t ∈ calculate_tiles (some ⟨1/2, 1, 0⟩) 1 1 RenderOptions.default,
      ¬ t.page_rect.containsPt (1/4) (1/2)) ∧
    (∃ t ∈ calculate_tiles (some ⟨1/2, 1, 0⟩) 1 1 RenderOptions.default,
      t.page_rect.x1 = t.page_rect.x0) ∧ (1/2 : ℚ) ≠ 0 := by
  have htiles : calculate_tiles (some ⟨1/2, 1, 0⟩) 1 1 RenderOptions.default =
      [mkTile (1/2) 1 1 1 0 0] := by
    have hc : (⌈((1 : ℚ)/2) / ((1 : ℤ) : ℚ)⌉ : ℤ) = 1 := by
      rw [Int.ceil_eq_iff]
      norm_num
    have hrws : (⌈(1 : ℚ) / ((1 : ℤ) : ℚ)⌉ : ℤ) = 1 := by
      rw [Int.ceil_eq_iff]
      norm_num
    simp only [calculate_tiles]
    rw [hc, hrws]
    norm_num [show List.range 1 = [0] from rfl]
  have hrect : (mkTile ((1 : ℚ)/2) 1 1 1 0 0).page_rect = ⟨0, 0, 0, 1⟩ := by
    have hw : cppInt ((1 : ℚ)/2) = 0 := by
      rw [cppInt, if_pos (by norm_num : (0 : ℚ) ≤ 1/2), Int.floor_eq_iff]
      norm_num
    have hh : cppInt (1 : ℚ) = 1 := by
      rw [cppInt, if_pos (by norm_num : (0 : ℚ) ≤ 1)]
      exact Int.floor_one
    norm_num [mkTile, hw, hh]
  refine ⟨by norm_num, ?_, ?_, by norm_num⟩
  · intro t ht
    rw [htiles, List.mem_singleton] at ht
    subst ht
    rw [hrect]
    norm_num [Rect.containsPt]
  · refine ⟨mkTile (1/2) 1 1 1 0 0, ?_, ?_⟩
    · rw [htiles]
      exact List.mem_singleton_self _
    · rw [hrect]

end PdfEditor
